import Mathlib

/-!
Shallow embedding of the docs-mcp content-provisioning core:
the configuration resolver (src/config.js), the build-time and runtime
archive fetchers (scripts/build.js, server), the Git update cycle
(checkForUpdates), the server-start orchestrator (run), the local copy
pass (copyIncludedDir) and the tool-call handler.

JavaScript numbers that can be NaN are modelled by `JNum`; nullable
strings by `Option String` (none = null/undefined); JS string
truthiness by `strTruthy`.  Effects (network, git, filesystem) are
modelled by explicit outcome environments, and each operation returns
the list of observable actions it performed.
-/

namespace DocsMcp

/-- A JavaScript number that may be NaN (as produced by `parseInt`). -/
inductive JNum
  | nan
  | num (n : Int)
deriving DecidableEq, Repr

/-- JS comparison `x > 0`: false for NaN. -/
def JNum.gtZero : JNum → Bool
  | .nan => false
  | .num n => decide (0 < n)

/-- Leading decimal digits of a character list. -/
def leadingDigits (cs : List Char) : List Char := cs.takeWhile Char.isDigit

/-- Numeric value of a digit list. -/
def digitsToNat (ds : List Char) : Nat :=
  ds.foldl (fun a c => a * 10 + (c.toNat - 48)) 0

/-- Model of JS `parseInt(s, 10)`: skip leading whitespace, optional
sign, then leading decimal digits; NaN when no digit is found. -/
def parseIntJS (s : String) : JNum :=
  match s.data.dropWhile Char.isWhitespace with
  | '-' :: rest =>
      if leadingDigits rest = [] then .nan
      else .num (-(digitsToNat (leadingDigits rest) : Int))
  | '+' :: rest =>
      if leadingDigits rest = [] then .nan
      else .num (digitsToNat (leadingDigits rest))
  | cs =>
      if leadingDigits cs = [] then .nan
      else .num (digitsToNat (leadingDigits cs))

/-- JS truthiness of a nullable string: null/undefined and "" are falsy. -/
def strTruthy : Option String → Bool
  | some s => decide (s ≠ "")
  | none => false

/-- JS `v || d` for a nullable string `v` and string default `d`. -/
def jsOr (v : Option String) (d : String) : String :=
  match v with
  | some s => if s = "" then d else s
  | none => d

/-- Model of `path.resolve(cwd, s)` for a relative `s` (posix). -/
def pathResolve (cwd s : String) : String :=
  String.mk (cwd.data ++ '/' :: s.data)

/-- Model of `path.isAbsolute` (posix). -/
def isAbsolute (s : String) : Bool :=
  match s.data with
  | '/' :: _ => true
  | _ => false

/-- The resolved settings object produced by `loadConfig` (src/config.js). -/
structure Config where
  includeDir : Option String
  gitUrl : Option String
  gitRef : Option String
  autoUpdateInterval : JNum
  dataDir : String
  toolName : String
  toolDescription : String
  ignorePatterns : List String
  enableBuildCleanup : Bool
deriving DecidableEq, Repr

/-- Default ignore patterns (src/config.js defaultConfig). -/
def defaultIgnorePatterns : List String :=
  ["node_modules", ".git", "dist", "build", "coverage"]

/-- The built-in defaults (src/config.js defaultConfig), parameterised by
the package-local default data directory. -/
def defaultConfig (defaultDataDir : String) : Config :=
  { includeDir := none
    gitUrl := none
    gitRef := some "main"
    autoUpdateInterval := JNum.num 0
    dataDir := defaultDataDir
    toolName := "search_docs"
    toolDescription := "Search documentation using the probe search engine."
    ignorePatterns := defaultIgnorePatterns
    enableBuildCleanup := true }

/-- Keys of the JSON config file; the outer Option is key presence, the
inner Option (where used) is a JSON null value. -/
structure FileConfig where
  includeDir : Option (Option String)
  gitUrl : Option (Option String)
  gitRef : Option (Option String)
  autoUpdateInterval : Option Int
  dataDir : Option String
  toolName : Option String
  toolDescription : Option String
  ignorePatterns : Option (List String)
  enableBuildCleanup : Option Bool
deriving DecidableEq, Repr

/-- The environment variables read by `loadConfig`; none = unset. -/
structure EnvVars where
  INCLUDE_DIR : Option String
  GIT_URL : Option String
  GIT_REF : Option String
  AUTO_UPDATE_INTERVAL : Option String
  DATA_DIR : Option String
  TOOL_NAME : Option String
  TOOL_DESCRIPTION : Option String
deriving DecidableEq, Repr

/-- Value of a minimist argument for `enableBuildCleanup`: a bare flag
gives a boolean, `--enableBuildCleanup=x` gives a string. -/
inductive ArgVal
  | aBool (b : Bool)
  | aStr (s : String)
deriving DecidableEq, Repr

/-- The command-line arguments read by `loadConfig`; none = not given. -/
structure Args where
  includeDir : Option String
  gitUrl : Option String
  gitRef : Option String
  autoUpdateInterval : Option String
  dataDir : Option String
  toolName : Option String
  toolDescription : Option String
  enableBuildCleanup : Option ArgVal
deriving DecidableEq, Repr

/-- `args.enableBuildCleanup === true || args.enableBuildCleanup === 'true'`. -/
def argValIsTrue : ArgVal → Bool
  | .aBool b => b
  | .aStr s => decide (s = "true")

/-- Spread `{...config, ...fileConfig}`: every key present in the file
overrides the corresponding field (src/config.js line 60).  A file that
is absent or failed to parse leaves the config unchanged. -/
def applyFile (c : Config) (file : Option FileConfig) : Config :=
  match file with
  | none => c
  | some f =>
    { includeDir := f.includeDir.getD c.includeDir
      gitUrl := f.gitUrl.getD c.gitUrl
      gitRef := f.gitRef.getD c.gitRef
      autoUpdateInterval := (f.autoUpdateInterval.map JNum.num).getD c.autoUpdateInterval
      dataDir := f.dataDir.getD c.dataDir
      toolName := f.toolName.getD c.toolName
      toolDescription := f.toolDescription.getD c.toolDescription
      ignorePatterns := f.ignorePatterns.getD c.ignorePatterns
      enableBuildCleanup := f.enableBuildCleanup.getD c.enableBuildCleanup }

/-- Environment-variable overrides (src/config.js lines 70-76): each
`if (process.env.X) config.x = ...` tests JS truthiness. -/
def applyEnv (c : Config) (e : EnvVars) : Config :=
  { includeDir := if strTruthy e.INCLUDE_DIR then e.INCLUDE_DIR else c.includeDir
    gitUrl := if strTruthy e.GIT_URL then e.GIT_URL else c.gitUrl
    gitRef := if strTruthy e.GIT_REF then e.GIT_REF else c.gitRef
    autoUpdateInterval :=
      match e.AUTO_UPDATE_INTERVAL with
      | some s => if s = "" then c.autoUpdateInterval else parseIntJS s
      | none => c.autoUpdateInterval
    dataDir :=
      match e.DATA_DIR with
      | some s => if s = "" then c.dataDir else s
      | none => c.dataDir
    toolName :=
      match e.TOOL_NAME with
      | some s => if s = "" then c.toolName else s
      | none => c.toolName
    toolDescription :=
      match e.TOOL_DESCRIPTION with
      | some s => if s = "" then c.toolDescription else s
      | none => c.toolDescription
    ignorePatterns := c.ignorePatterns
    enableBuildCleanup := c.enableBuildCleanup }

/-- Command-line overrides (src/config.js lines 79-86).  String-valued
flags test JS truthiness; `autoUpdateInterval` and `enableBuildCleanup`
test `!== undefined`. -/
def applyArgs (c : Config) (a : Args) : Config :=
  { includeDir := if strTruthy a.includeDir then a.includeDir else c.includeDir
    gitUrl := if strTruthy a.gitUrl then a.gitUrl else c.gitUrl
    gitRef := if strTruthy a.gitRef then a.gitRef else c.gitRef
    autoUpdateInterval :=
      match a.autoUpdateInterval with
      | some s => parseIntJS s
      | none => c.autoUpdateInterval
    dataDir :=
      match a.dataDir with
      | some s => if s = "" then c.dataDir else s
      | none => c.dataDir
    toolName :=
      match a.toolName with
      | some s => if s = "" then c.toolName else s
      | none => c.toolName
    toolDescription :=
      match a.toolDescription with
      | some s => if s = "" then c.toolDescription else s
      | none => c.toolDescription
    ignorePatterns := c.ignorePatterns
    enableBuildCleanup :=
      match a.enableBuildCleanup with
      | some v => argValIsTrue v
      | none => c.enableBuildCleanup }

/-- The four-layer merge of `loadConfig` before normalisation:
defaults, then config file, then environment, then command line. -/
def mergeLayers (defaultDataDir : String) (file : Option FileConfig)
    (env : EnvVars) (args : Args) : Config :=
  applyArgs (applyEnv (applyFile (defaultConfig defaultDataDir) file) env) args

/-- Warnings logged by `loadConfig`'s validation block. -/
inductive Warning
  | conflictBothSources
  | noSource
deriving DecidableEq, Repr

/-- Absolutise `dataDir` (src/config.js lines 89-91). -/
def absDataDir (cwd : String) (c : Config) : Config :=
  if isAbsolute c.dataDir then c
  else { c with dataDir := pathResolve cwd c.dataDir }

/-- Absolutise a truthy relative `includeDir` (src/config.js lines
94-96). -/
def absIncludeDir (cwd : String) (c : Config) : Config :=
  match c.includeDir with
  | some s =>
      if s ≠ "" ∧ ¬ isAbsolute s
      then { c with includeDir := some (pathResolve cwd s) }
      else c
  | none => c

/-- The validation block of `loadConfig` (src/config.js lines 98-105):
when both sources are truthy, gitUrl wins, includeDir is cleared and
one conflict warning is logged; when neither is truthy, a no-source
warning is logged. -/
def validateSources (c : Config) : Config × List Warning :=
  if strTruthy c.includeDir ∧ strTruthy c.gitUrl then
    ({ c with includeDir := none }, [Warning.conflictBothSources])
  else if ¬ strTruthy c.includeDir ∧ ¬ strTruthy c.gitUrl then
    (c, [Warning.noSource])
  else
    (c, [])

/-- Post-merge normalisation of `loadConfig` (src/config.js lines
88-105): absolutise `dataDir` and `includeDir`, then apply the
mutual-exclusivity rule and the no-source warning. -/
def normalizeConfig (cwd : String) (c : Config) : Config × List Warning :=
  validateSources (absIncludeDir cwd (absDataDir cwd c))

/-- `loadConfig` (src/config.js): merge the four layers, then normalise.
Returns the resolved settings and the warnings logged. -/
def loadConfig (defaultDataDir cwd : String) (file : Option FileConfig)
    (env : EnvVars) (args : Args) : Config × List Warning :=
  normalizeConfig cwd (mergeLayers defaultDataDir file env args)

/-! ## Observable actions and effect environments -/

/-- Observable side effects of the acquisition and update code. -/
inductive Action
  | clearDir
  | downloadArchive (ref : String)
  | gitClone
  | checkIsRepo
  | gitFetch
  | gitStatus
  | gitPull
  | copyPass
  | armTimer (delayMs : Int)
deriving DecidableEq, Repr

/-- Archive downloads actually attempted in a trace, in order. -/
def attemptsOf (t : List Action) : List String :=
  t.filterMap fun a =>
    match a with
    | .downloadArchive r => some r
    | _ => none

/-- Delays of the update timers armed in a trace, in order. -/
def armedDelays (t : List Action) : List Int :=
  t.filterMap fun a =>
    match a with
    | .armTimer d => some d
    | _ => none

/-- True when every archive download in the trace is immediately
preceded by a directory clear. -/
def clearedBeforeEach : List Action → Bool
  | [] => true
  | Action.clearDir :: Action.downloadArchive _ :: rest => clearedBeforeEach rest
  | Action.downloadArchive _ :: _ => false
  | _ :: rest => clearedBeforeEach rest

/-- Outcome of one archive download-and-extract for a given ref: axios
throws for non-2xx statuses carrying the response status; stream or
network errors carry no response. -/
inductive DLOutcome
  | ok
  | http (status : Nat)
  | err
deriving DecidableEq, Repr

/-- Result of the runtime archive fetcher. -/
inductive FetchResult
  | ok
  | invalidUrl
  | attemptFailed (o : DLOutcome)
  | bothRefsFailed
deriving DecidableEq, Repr

/-- Split a character list at every '/'. -/
def splitOnSlash : List Char → List (List Char)
  | [] => [[]]
  | c :: cs =>
    let r := splitOnSlash cs
    if c = '/' then [] :: r
    else
      match r with
      | [] => [[c]]
      | p :: ps => (c :: p) :: ps

/-- The characters after the last occurrence of `pat`, or none. -/
def afterLastSub (pat : List Char) : List Char → Option (List Char)
  | [] => none
  | c :: cs =>
    match afterLastSub pat cs with
    | some r => some r
    | none =>
        if pat.isPrefixOf (c :: cs) then some ((c :: cs).drop pat.length)
        else none

/-- Drop a trailing ".git" as the regex group `(\.git)?$` does. -/
def stripDotGit (cs : List Char) : List Char :=
  if List.isSuffixOf ".git".data cs ∧ 4 < cs.length
  then (cs.reverse.drop 4).reverse else cs

/-- Model of the URL recognition
`gitUrl.match(/github\.com\/([^/]+)\/([^/]+?)(\.git)?$/)`:
owner and repo segments after "github.com/", neither empty nor
containing a slash, with an optional ".git" suffix on the repo. -/
def githubMatch (gitUrl : Option String) : Option (String × String) :=
  match gitUrl with
  | none => none
  | some s =>
    match afterLastSub "github.com/".data s.data with
    | none => none
    | some rest =>
      match splitOnSlash rest with
      | [owner, repo] =>
          if owner ≠ [] ∧ repo ≠ []
          then some (String.mk owner, String.mk (stripDotGit repo))
          else none
      | _ => none

/-! ## Archive fetchers -/

/-- Trace of one runtime download attempt (server `downloadAttempt`):
the data directory is emptied, then the archive for the ref is
downloaded and extracted. -/
def runtimeAttemptTrace (r : String) : List Action :=
  [Action.clearDir, Action.downloadArchive r]

/-- The server's `downloadAndExtractTarballRuntime`: recognise the URL
(failing immediately otherwise), attempt `gitRef || 'main'`, and retry
once with 'master' only when the ref was 'main' and the failure was an
HTTP 404; no clone fallback exists at runtime. -/
def downloadAndExtractTarballRuntime (gitUrl gitRef : Option String)
    (dl : String → DLOutcome) : FetchResult × List Action :=
  match githubMatch gitUrl with
  | none => (.invalidUrl, [])
  | some _ =>
    let ref := jsOr gitRef "main"
    match dl ref with
    | .ok => (.ok, runtimeAttemptTrace ref)
    | .http s =>
        if ref = "main" ∧ s = 404 then
          match dl "master" with
          | .ok => (.ok, runtimeAttemptTrace "main" ++ runtimeAttemptTrace "master")
          | _ => (.bothRefsFailed, runtimeAttemptTrace "main" ++ runtimeAttemptTrace "master")
        else (.attemptFailed (.http s), runtimeAttemptTrace ref)
    | .err => (.attemptFailed .err, runtimeAttemptTrace ref)

/-- The build script's `downloadAndExtractTarball` (scripts/build.js):
URL-recognition failure falls back directly to a clone; otherwise
attempt `gitRef || 'main'`, retry once with 'master' on a 404 of
'main', and on any remaining failure fall back to a clone
(`fallbackToClone`), whose own failure propagates.  Its
`downloadAttempt` does not clear the data directory. -/
def downloadAndExtractTarball (gitUrl gitRef : Option String)
    (dl : String → DLOutcome) (clone : Except Unit Unit) :
    Except Unit Unit × List Action :=
  match githubMatch gitUrl with
  | none => (clone, [Action.gitClone])
  | some _ =>
    let ref := jsOr gitRef "main"
    match dl ref with
    | .ok => (.ok (), [Action.downloadArchive ref])
    | .http s =>
        if ref = "main" ∧ s = 404 then
          match dl "master" with
          | .ok => (.ok (), [Action.downloadArchive "main", Action.downloadArchive "master"])
          | _ => (clone, [Action.downloadArchive "main", Action.downloadArchive "master", Action.gitClone])
        else (clone, [Action.downloadArchive ref, Action.gitClone])
    | .err => (clone, [Action.downloadArchive ref, Action.gitClone])

/-- The pure success condition of the two-attempt archive sequence. -/
def archiveSucceeds (gitRef : Option String) (dl : String → DLOutcome) : Prop :=
  let ref := jsOr gitRef "main"
  dl ref = .ok ∨ (ref = "main" ∧ dl ref = .http 404 ∧ dl "master" = .ok)

/-! ## Git update cycle -/

/-- Result of `git.status()`. -/
structure GitStatus where
  behind : Nat
deriving DecidableEq, Repr

/-- Outcomes of the git operations one `checkForUpdates` cycle may run. -/
structure CheckEnv where
  isRepo : Except Unit Bool
  fetch : Except Unit Unit
  status : Except Unit GitStatus
  pull : Except Unit Unit

/-- Actions performed by the `try` body of `checkForUpdates`: validity
check, then fetch, status, and a pull only when behind; the first
failing step ends the body (the error is caught by the `catch`). -/
def checkBodyTrace (env : CheckEnv) : List Action :=
  match env.isRepo with
  | .error _ => [Action.checkIsRepo]
  | .ok false => [Action.checkIsRepo]
  | .ok true =>
    match env.fetch with
    | .error _ => [Action.checkIsRepo, Action.gitFetch]
    | .ok _ =>
      match env.status with
      | .error _ => [Action.checkIsRepo, Action.gitFetch, Action.gitStatus]
      | .ok st =>
          if 0 < st.behind then
            [Action.checkIsRepo, Action.gitFetch, Action.gitStatus, Action.gitPull]
          else
            [Action.checkIsRepo, Action.gitFetch, Action.gitStatus]

/-- `checkForUpdates` (server): early-return when no gitUrl is
configured or git is uninitialised; otherwise run the body inside
try/catch and, in the `finally` path, arm one timer for
`autoUpdateInterval * 60 * 1000` ms when the interval is > 0.  The
boolean is whether an exception escaped to the caller: the `catch`
swallows every body failure, so it is always false. -/
def checkForUpdates (cfg : Config) (gitInitialized : Bool) (env : CheckEnv) :
    List Action × Bool :=
  if ¬ strTruthy cfg.gitUrl ∨ ¬ gitInitialized then ([], false)
  else
    let body := checkBodyTrace env
    let rearm :=
      match cfg.autoUpdateInterval with
      | .num n => if 0 < n then [Action.armTimer (n * 60 * 1000)] else []
      | .nan => []
    (body ++ rearm, false)

/-! ## Server-start orchestrator -/

/-- Outcome of server start: accepting requests, or a fatal exit. -/
inductive RunOutcome
  | serving
  | exited
deriving DecidableEq, Repr

/-- Environment of one server start. -/
structure RunEnv where
  args : Args
  envVars : EnvVars
  dataDirExists : Bool
  readDir : Except Unit Nat
  dl : String → DLOutcome
  isRepo : Except Unit Bool
  clone : Except Unit Unit
  check : CheckEnv

/-- `args.dataDir || args.gitUrl || args.includeDir || process.env.DATA_DIR
|| process.env.GIT_URL || process.env.INCLUDE_DIR` (server `run`). -/
def runtimeOverrideOf (e : RunEnv) : Bool :=
  strTruthy e.args.dataDir || strTruthy e.args.gitUrl || strTruthy e.args.includeDir ||
  strTruthy e.envVars.DATA_DIR || strTruthy e.envVars.GIT_URL || strTruthy e.envVars.INCLUDE_DIR

/-- The pre-built-content check of `run`: no runtime override, the data
directory exists, and reading it succeeds with at least one entry. -/
def usePrebuiltData (e : RunEnv) : Bool :=
  !runtimeOverrideOf e && e.dataDirExists &&
    (match e.readDir with
     | .ok n => decide (0 < n)
     | .error _ => false)

/-- The content-source initialisation of the server's `run`: pre-built
shortcut, else dispatch on gitUrl (git engine when the interval is > 0,
runtime tarball otherwise, whose failure is fatal with no clone
fallback), else the includeDir / no-source branches that perform no
acquisition. -/
def runServer (cfg : Config) (e : RunEnv) : List Action × RunOutcome :=
  if usePrebuiltData e then ([], .serving)
  else if strTruthy cfg.gitUrl then
    if cfg.autoUpdateInterval.gtZero then
      match e.isRepo with
      | .error _ => ([Action.checkIsRepo], .exited)
      | .ok true =>
          (Action.checkIsRepo :: (checkForUpdates cfg true e.check).1, .serving)
      | .ok false =>
        match e.clone with
        | .error _ => ([Action.checkIsRepo, Action.clearDir, Action.gitClone], .exited)
        | .ok _ =>
            ([Action.checkIsRepo, Action.clearDir, Action.gitClone] ++
              (checkForUpdates cfg true e.check).1, .serving)
    else
      match downloadAndExtractTarballRuntime cfg.gitUrl cfg.gitRef e.dl with
      | (.ok, t) => (t, .serving)
      | (_, t) => (t, .exited)
  else ([], .serving)

/-! ## Build-time orchestrator and local copy pass -/

/-- Result of one `copyIncludedDir` pass. -/
structure CopyResult where
  copied : List String
  outcome : Except Unit Unit
  successLogged : Bool
deriving Repr

/-- The copy loop of `copyIncludedDir`: copy file-by-file, stopping at
the first failure, which propagates. -/
def copyFiles (copy : String → Except Unit Unit) :
    List String → List String × Except Unit Unit
  | [] => ([], .ok ())
  | f :: rest =>
    match copy f with
    | .error e => ([], .error e)
    | .ok _ =>
      let (c, r) := copyFiles copy rest
      (f :: c, r)

/-- `copyIncludedDir` (scripts/build.js): enumerate files (the glob may
itself fail), copy each one, log success only after every copy
succeeded; any error is re-thrown to the caller. -/
def copyIncludedDir (globFiles : Except Unit (List String))
    (copy : String → Except Unit Unit) : CopyResult :=
  match globFiles with
  | .error e => ⟨[], .error e, false⟩
  | .ok files =>
    match copyFiles copy files with
    | (c, .ok _) => ⟨c, .ok (), true⟩
    | (c, .error e) => ⟨c, .error e, false⟩

/-- `prepareDataDir` (scripts/build.js): always clear the data
directory first, then dispatch: clone when auto-update is enabled,
build tarball fetch otherwise, local copy for includeDir, or nothing. -/
def prepareDataDir (cfg : Config) (dl : String → DLOutcome)
    (clone : Except Unit Unit) (copyRes : CopyResult) :
    Except Unit Unit × List Action :=
  if strTruthy cfg.gitUrl then
    if cfg.autoUpdateInterval.gtZero then
      (clone, [Action.clearDir, Action.gitClone])
    else
      let (r, t) := downloadAndExtractTarball cfg.gitUrl cfg.gitRef dl clone
      (r, Action.clearDir :: t)
  else if strTruthy cfg.includeDir then
    (copyRes.outcome, [Action.clearDir, Action.copyPass])
  else
    (.ok (), [Action.clearDir])

/-! ## Tool-call handler -/

/-- A JavaScript value sent as the `query` argument. -/
inductive JVal
  | vStr (s : String)
  | vNum (n : JNum)
  | vBool (b : Bool)
  | vNull
deriving DecidableEq, Repr

/-- JS truthiness of a value (`!args.query` negates this). -/
def JVal.truthy : JVal → Bool
  | .vStr s => decide (s ≠ "")
  | .vNum (.num n) => decide (n ≠ 0)
  | .vNum .nan => false
  | .vBool b => b
  | .vNull => false

/-- The `arguments` of a tool call: an object with an optional `query`
field, or something that is not an object. -/
inductive ReqArgs
  | obj (query : Option JVal)
  | nonObject
deriving DecidableEq, Repr

/-- One tool-call request. -/
structure ToolRequest where
  name : String
  arguments : Option ReqArgs
deriving DecidableEq, Repr

/-- What the call handler produces: a tool-level reply (possibly with
`isError` set), or an `McpError` thrown to the transport. -/
inductive HandlerResult
  | reply (isError : Bool) (text : String)
  | protocolError
deriving DecidableEq, Repr

/-- The CallTool handler (server `setupToolHandlers`): a wrong tool
name throws an `McpError`; inside the try, missing/non-object
arguments or a falsy `query` throw ordinary errors which the catch
turns into a reply with `isError: true`; search failures are likewise
caught and returned as error replies. -/
def handleCallTool (toolName : String) (searchResult : Except String String)
    (req : ToolRequest) : HandlerResult :=
  if req.name ≠ toolName then .protocolError
  else
    match req.arguments with
    | none => .reply true "Arguments must be an object"
    | some .nonObject => .reply true "Arguments must be an object"
    | some (.obj q) =>
      match q with
      | none => .reply true "Query is required in arguments"
      | some v =>
          if v.truthy then
            match searchResult with
            | .ok s => .reply false s
            | .error m => .reply true m
          else .reply true "Query is required in arguments"

/-- The server loop over a sequence of requests: every request is
handled; no request terminates the process. -/
def serveAll (toolName : String)
    (reqs : List (ToolRequest × Except String String)) : List HandlerResult :=
  reqs.map fun p => handleCallTool toolName p.2 p.1

/-! ## Layer-precedence specification (for the configuration claims) -/

/-- First-match-wins choice across the three override layers above the
default: CLI, then environment, then file. -/
def layered {α : Type} (dflt : α) (fileV envV cliV : Option α) : α :=
  cliV.getD (envV.getD (fileV.getD dflt))

/-- The value the config-file layer sets for a field (none when the
file is absent or the key missing). -/
def fileSets {α : Type} (file : Option FileConfig) (f : FileConfig → Option α) :
    Option α :=
  file.bind f

/-- The value a truthiness-guarded string layer sets: unset and empty
strings set nothing. -/
def truthySet : Option String → Option String
  | some s => if s = "" then none else some s
  | none => none

/-! ## Helper lemmas -/

theorem ifTruthy_eq (v c : Option String) :
    (if strTruthy v then v else c) = ((truthySet v).map some).getD c := by
  cases v with
  | none => rfl
  | some s =>
      by_cases h : s = "" <;> simp [strTruthy, truthySet, h]

theorem matchTruthyStr_eq (v : Option String) (c : String) :
    (match v with
     | some s => if s = "" then c else s
     | none => c) = (truthySet v).getD c := by
  cases v with
  | none => rfl
  | some s =>
      by_cases h : s = "" <;> simp [truthySet, h]

theorem matchTruthyParse_eq (v : Option String) (c : JNum) :
    (match v with
     | some s => if s = "" then c else parseIntJS s
     | none => c) = ((truthySet v).map parseIntJS).getD c := by
  cases v with
  | none => rfl
  | some s =>
      by_cases h : s = "" <;> simp [truthySet, h]

theorem pathResolve_ne_empty (cwd s : String) : pathResolve cwd s ≠ "" := by
  simp only [pathResolve, ne_eq, String.ext_iff]
  simp

theorem strTruthy_pathResolve (cwd s : String) :
    strTruthy (some (pathResolve cwd s)) = true := by
  simp [strTruthy, pathResolve_ne_empty]

theorem absDataDir_includeDir (cwd : String) (c : Config) :
    (absDataDir cwd c).includeDir = c.includeDir := by
  unfold absDataDir; split <;> rfl

theorem absDataDir_gitUrl (cwd : String) (c : Config) :
    (absDataDir cwd c).gitUrl = c.gitUrl := by
  unfold absDataDir; split <;> rfl

theorem absIncludeDir_gitUrl (cwd : String) (c : Config) :
    (absIncludeDir cwd c).gitUrl = c.gitUrl := by
  unfold absIncludeDir
  cases h : c.includeDir with
  | none => simp [h]
  | some s =>
      simp only [h]
      split <;> rfl

theorem absIncludeDir_truthy (cwd : String) (c : Config) :
    strTruthy (absIncludeDir cwd c).includeDir = strTruthy c.includeDir := by
  unfold absIncludeDir
  cases h : c.includeDir with
  | none => simp [h]
  | some s =>
      simp only [h]
      split
      · next hc => simp [strTruthy, pathResolve_ne_empty, hc.1]
      · simp [h]

theorem matchParse_eq (v : Option String) (c : JNum) :
    (match v with
     | some s => parseIntJS s
     | none => c) = (v.map parseIntJS).getD c := by
  cases v <;> rfl

theorem matchArgVal_eq (v : Option ArgVal) (c : Bool) :
    (match v with
     | some x => argValIsTrue x
     | none => c) = (v.map argValIsTrue).getD c := by
  cases v <;> rfl

theorem applyFile_includeDir (c : Config) (file : Option FileConfig) :
    (applyFile c file).includeDir = (fileSets file FileConfig.includeDir).getD c.includeDir := by
  cases file <;> rfl

theorem applyFile_gitUrl (c : Config) (file : Option FileConfig) :
    (applyFile c file).gitUrl = (fileSets file FileConfig.gitUrl).getD c.gitUrl := by
  cases file <;> rfl

theorem applyFile_gitRef (c : Config) (file : Option FileConfig) :
    (applyFile c file).gitRef = (fileSets file FileConfig.gitRef).getD c.gitRef := by
  cases file <;> rfl

theorem applyFile_autoUpdateInterval (c : Config) (file : Option FileConfig) :
    (applyFile c file).autoUpdateInterval =
      ((fileSets file FileConfig.autoUpdateInterval).map JNum.num).getD c.autoUpdateInterval := by
  cases file <;> rfl

theorem applyFile_dataDir (c : Config) (file : Option FileConfig) :
    (applyFile c file).dataDir = (fileSets file FileConfig.dataDir).getD c.dataDir := by
  cases file <;> rfl

theorem applyFile_toolName (c : Config) (file : Option FileConfig) :
    (applyFile c file).toolName = (fileSets file FileConfig.toolName).getD c.toolName := by
  cases file <;> rfl

theorem applyFile_toolDescription (c : Config) (file : Option FileConfig) :
    (applyFile c file).toolDescription =
      (fileSets file FileConfig.toolDescription).getD c.toolDescription := by
  cases file <;> rfl

theorem applyFile_ignorePatterns (c : Config) (file : Option FileConfig) :
    (applyFile c file).ignorePatterns =
      (fileSets file FileConfig.ignorePatterns).getD c.ignorePatterns := by
  cases file <;> rfl

theorem applyFile_enableBuildCleanup (c : Config) (file : Option FileConfig) :
    (applyFile c file).enableBuildCleanup =
      (fileSets file FileConfig.enableBuildCleanup).getD c.enableBuildCleanup := by
  cases file <;> rfl

/-- An absent config file value. -/
def noFileKeys : FileConfig := ⟨none, none, none, none, none, none, none, none, none⟩

/-- No environment variables set. -/
def noEnv : EnvVars := ⟨none, none, none, none, none, none, none⟩

/-- No command-line arguments given. -/
def noArgs : Args := ⟨none, none, none, none, none, none, none, none⟩

theorem armedDelays_append (a b : List Action) :
    armedDelays (a ++ b) = armedDelays a ++ armedDelays b := by
  simp [armedDelays]

theorem armedDelays_checkBodyTrace (env : CheckEnv) :
    armedDelays (checkBodyTrace env) = [] := by
  obtain ⟨ir, f, st, p⟩ := env
  unfold checkBodyTrace
  rcases ir with e | b
  · rfl
  · cases b
    · rfl
    · rcases f with e | u
      · rfl
      · rcases st with e | s
        · rfl
        · dsimp only
          split <;> rfl

/-! ## Claim theorems -/

/-- C1: on a Git-backed source with git initialised, every completed
update cycle — whatever the outcomes of the validity check, fetch,
status and pull, including the not-a-repository skip — propagates no
exception to its caller, and its finally path arms exactly one new
timer, of `interval * 60 * 1000` milliseconds, when the interval is a
positive number, and none when the interval is zero (or not a
number). -/
theorem checkForUpdates_alwaysRearms (cfg : Config) (env : CheckEnv)
    (hg : strTruthy cfg.gitUrl = true) :
    (checkForUpdates cfg true env).2 = false ∧
    armedDelays (checkForUpdates cfg true env).1 =
      (match cfg.autoUpdateInterval with
       | .num n => if 0 < n then [n * 60 * 1000] else []
       | .nan => []) := by
  unfold checkForUpdates
  rw [if_neg (by simp [hg])]
  refine ⟨rfl, ?_⟩
  rw [armedDelays_append, armedDelays_checkBodyTrace, List.nil_append]
  cases h : cfg.autoUpdateInterval with
  | nan => rfl
  | num n =>
      dsimp only
      split <;> rfl

/-- A Git-backed configuration with a five-minute update interval. -/
def gitCfg5 : Config :=
  { defaultConfig "/pkg/data" with
      gitUrl := some "https://github.com/acme/docs"
      autoUpdateInterval := JNum.num 5 }

/-- An update-cycle environment whose fetch fails. -/
def failingCheckEnv : CheckEnv := ⟨.ok true, .error (), .ok ⟨0⟩, .ok ()⟩

/-- C1 witness: a cycle whose fetch fails still propagates nothing and
arms one timer of 300000 ms for a five-minute interval. -/
theorem checkForUpdates_alwaysRearms_witness :
    (checkForUpdates gitCfg5 true failingCheckEnv).2 = false ∧
    armedDelays (checkForUpdates gitCfg5 true failingCheckEnv).1 = [300000] :=
  ⟨(checkForUpdates_alwaysRearms gitCfg5 failingCheckEnv (by decide)).1,
   by rw [(checkForUpdates_alwaysRearms gitCfg5 failingCheckEnv (by decide)).2]; decide⟩

/-- C2: with no runtime content-source override and an existing,
non-empty data directory, server start performs no acquisition action
at all — in particular no archive download, no clone, no fetch and no
pull — arms no update timer, and proceeds to serve the existing
content. -/
theorem runServer_prebuiltShortcut (cfg : Config) (e : RunEnv) (n : Nat)
    (hov : runtimeOverrideOf e = false) (hex : e.dataDirExists = true)
    (hrd : e.readDir = .ok n) (hn : 0 < n) :
    (runServer cfg e).1 = [] ∧
    (runServer cfg e).2 = .serving ∧
    (∀ r, Action.downloadArchive r ∉ (runServer cfg e).1) ∧
    Action.gitClone ∉ (runServer cfg e).1 ∧
    Action.gitFetch ∉ (runServer cfg e).1 ∧
    Action.gitPull ∉ (runServer cfg e).1 ∧
    armedDelays (runServer cfg e).1 = [] := by
  have hpre : usePrebuiltData e = true := by
    unfold usePrebuiltData
    rw [hov, hex, hrd]
    simp [hn]
  have hrs : runServer cfg e = ([], .serving) := by
    unfold runServer
    rw [if_pos hpre]
  rw [hrs]
  exact ⟨rfl, rfl, by simp, by simp, by simp, by simp, rfl⟩

/-- A server-start environment with no overrides and a non-empty
pre-built data directory. -/
def idleRunEnv : RunEnv :=
  { args := noArgs
    envVars := noEnv
    dataDirExists := true
    readDir := .ok 3
    dl := fun _ => .ok
    isRepo := .ok true
    clone := .ok ()
    check := ⟨.ok true, .ok (), .ok ⟨0⟩, .ok ()⟩ }

/-- C2 witness: a concrete start over pre-built content performs no
action and serves. -/
theorem runServer_prebuiltShortcut_witness :
    (runServer (defaultConfig "/pkg/data") idleRunEnv).1 = [] ∧
    (runServer (defaultConfig "/pkg/data") idleRunEnv).2 = .serving :=
  ⟨(runServer_prebuiltShortcut (defaultConfig "/pkg/data") idleRunEnv 3
      (by decide) rfl rfl (by decide)).1,
   (runServer_prebuiltShortcut (defaultConfig "/pkg/data") idleRunEnv 3
      (by decide) rfl rfl (by decide)).2.1⟩

theorem runtimeAttempts (gitUrl gitRef : Option String) (dl : String → DLOutcome)
    (p : String × String) (hp : githubMatch gitUrl = some p) :
    attemptsOf (downloadAndExtractTarballRuntime gitUrl gitRef dl).2 =
      if jsOr gitRef "main" = "main" ∧ dl "main" = DLOutcome.http 404
      then ["main", "master"] else [jsOr gitRef "main"] := by
  unfold downloadAndExtractTarballRuntime
  rw [hp]
  dsimp only
  cases hdl : dl (jsOr gitRef "main") with
  | ok =>
      rw [if_neg]
      · simp [attemptsOf, runtimeAttemptTrace]
      · rintro ⟨h1, h2⟩
        rw [h1, h2] at hdl
        exact absurd hdl (by decide)
  | http s =>
      dsimp only
      by_cases hc : jsOr gitRef "main" = "main" ∧ s = 404
      · rw [if_pos hc]
        have h404 : dl "main" = DLOutcome.http 404 := by
          rw [← hc.1, hdl, hc.2]
        rw [if_pos ⟨hc.1, h404⟩]
        cases hm : dl "master" <;> simp [hm, attemptsOf, runtimeAttemptTrace]
      · rw [if_neg hc, if_neg]
        · simp [attemptsOf, runtimeAttemptTrace]
        · rintro ⟨h1, h2⟩
          rw [h1, h2] at hdl
          exact hc ⟨h1, by injection hdl with h; exact h.symm⟩
  | err =>
      rw [if_neg]
      · simp [attemptsOf, runtimeAttemptTrace]
      · rintro ⟨h1, h2⟩
        rw [h1, h2] at hdl
        exact absurd hdl (by decide)

theorem buildAttempts (gitUrl gitRef : Option String) (dl : String → DLOutcome)
    (clone : Except Unit Unit) (p : String × String)
    (hp : githubMatch gitUrl = some p) :
    attemptsOf (downloadAndExtractTarball gitUrl gitRef dl clone).2 =
      if jsOr gitRef "main" = "main" ∧ dl "main" = DLOutcome.http 404
      then ["main", "master"] else [jsOr gitRef "main"] := by
  unfold downloadAndExtractTarball
  rw [hp]
  dsimp only
  cases hdl : dl (jsOr gitRef "main") with
  | ok =>
      rw [if_neg]
      · simp [attemptsOf]
      · rintro ⟨h1, h2⟩
        rw [h1, h2] at hdl
        exact absurd hdl (by decide)
  | http s =>
      dsimp only
      by_cases hc : jsOr gitRef "main" = "main" ∧ s = 404
      · rw [if_pos hc]
        have h404 : dl "main" = DLOutcome.http 404 := by
          rw [← hc.1, hdl, hc.2]
        rw [if_pos ⟨hc.1, h404⟩]
        cases hm : dl "master" <;> simp [hm, attemptsOf]
      · rw [if_neg hc, if_neg]
        · simp [attemptsOf]
        · rintro ⟨h1, h2⟩
          rw [h1, h2] at hdl
          exact hc ⟨h1, by injection hdl with h; exact h.symm⟩
  | err =>
      rw [if_neg]
      · simp [attemptsOf]
      · rintro ⟨h1, h2⟩
        rw [h1, h2] at hdl
        exact absurd hdl (by decide)

/-- C3: in both the runtime and the build-time archive fetcher, when
the requested ref is the default 'main' and its download fails with
HTTP 404, exactly one retry with ref 'master' is performed; a non-404
failure, or a failure on a non-default ref, yields no retry at all,
and in every case at most two download attempts are made — so a
failure of the 'master' retry itself triggers no further attempt. -/
theorem archiveRefFallback (gitUrl gitRef : Option String)
    (dl : String → DLOutcome) (clone : Except Unit Unit)
    (p : String × String) (hp : githubMatch gitUrl = some p) :
    (jsOr gitRef "main" = "main" → dl "main" = DLOutcome.http 404 →
      attemptsOf (downloadAndExtractTarballRuntime gitUrl gitRef dl).2 = ["main", "master"] ∧
      attemptsOf (downloadAndExtractTarball gitUrl gitRef dl clone).2 = ["main", "master"]) ∧
    (∀ s, dl (jsOr gitRef "main") = DLOutcome.http s →
      ¬(jsOr gitRef "main" = "main" ∧ s = 404) →
      attemptsOf (downloadAndExtractTarballRuntime gitUrl gitRef dl).2 = [jsOr gitRef "main"] ∧
      attemptsOf (downloadAndExtractTarball gitUrl gitRef dl clone).2 = [jsOr gitRef "main"]) ∧
    (dl (jsOr gitRef "main") = DLOutcome.err →
      attemptsOf (downloadAndExtractTarballRuntime gitUrl gitRef dl).2 = [jsOr gitRef "main"] ∧
      attemptsOf (downloadAndExtractTarball gitUrl gitRef dl clone).2 = [jsOr gitRef "main"]) ∧
    (attemptsOf (downloadAndExtractTarballRuntime gitUrl gitRef dl).2).length ≤ 2 ∧
    (attemptsOf (downloadAndExtractTarball gitUrl gitRef dl clone).2).length ≤ 2 := by
  rw [runtimeAttempts gitUrl gitRef dl p hp, buildAttempts gitUrl gitRef dl clone p hp]
  refine ⟨?_, ?_, ?_, ?_, ?_⟩
  · intro h1 h2
    rw [if_pos ⟨h1, h2⟩]
    exact ⟨rfl, rfl⟩
  · intro s hs hns
    have hneg : ¬(jsOr gitRef "main" = "main" ∧ dl "main" = DLOutcome.http 404) := by
      rintro ⟨h1, h2⟩
      rw [h1, h2] at hs
      exact hns ⟨h1, by injection hs with h; exact h.symm⟩
    rw [if_neg hneg]
    exact ⟨rfl, rfl⟩
  · intro he
    have hneg : ¬(jsOr gitRef "main" = "main" ∧ dl "main" = DLOutcome.http 404) := by
      rintro ⟨h1, h2⟩
      rw [h1, h2] at he
      exact absurd he (by decide)
    rw [if_neg hneg]
    exact ⟨rfl, rfl⟩
  · split <;> simp
  · split <;> simp

/-- A download environment in which 'main' 404s and 'master' is served. -/
def dlMain404 : String → DLOutcome :=
  fun r => if r = "main" then .http 404 else .ok

/-- C3 witness: with 'main' returning 404, both fetchers attempt
exactly 'main' then 'master'. -/
theorem archiveRefFallback_witness :
    attemptsOf (downloadAndExtractTarballRuntime (some "https://github.com/acme/docs")
      (some "main") dlMain404).2 = ["main", "master"] ∧
    attemptsOf (downloadAndExtractTarball (some "https://github.com/acme/docs")
      (some "main") dlMain404 (.ok ())).2 = ["main", "master"] :=
  (archiveRefFallback (some "https://github.com/acme/docs") (some "main")
      dlMain404 (.ok ()) ("acme", "docs") (by decide)).1 (by decide) (by decide)

theorem runtime_no_clone (gitUrl gitRef : Option String) (dl : String → DLOutcome) :
    Action.gitClone ∉ (downloadAndExtractTarballRuntime gitUrl gitRef dl).2 := by
  unfold downloadAndExtractTarballRuntime
  cases githubMatch gitUrl with
  | none => simp
  | some p =>
      dsimp only
      cases dl (jsOr gitRef "main") with
      | ok => simp [runtimeAttemptTrace]
      | http s =>
          dsimp only
          split
          · cases dl "master" <;> simp [runtimeAttemptTrace]
          · simp [runtimeAttemptTrace]
      | err => simp [runtimeAttemptTrace]

theorem runtime_no_timer (gitUrl gitRef : Option String) (dl : String → DLOutcome) :
    armedDelays (downloadAndExtractTarballRuntime gitUrl gitRef dl).2 = [] := by
  unfold downloadAndExtractTarballRuntime
  cases githubMatch gitUrl with
  | none => rfl
  | some p =>
      dsimp only
      cases dl (jsOr gitRef "main") with
      | ok => rfl
      | http s =>
          dsimp only
          split
          · cases dl "master" <;> rfl
          · rfl
      | err => rfl

/-- C4: at server start, any failure of the runtime archive fetch
(other than URL recognition) leads to a fatal exit with no clone
attempted anywhere in the start-up trace; at build time, every failure
of the archive path — URL-recognition failure or exhaustion of the
main/master fallback or any other download failure — leads to a clone
being attempted instead of aborting the fetch. -/
theorem fallbackPolicies :
    (∀ (cfg : Config) (e : RunEnv) (err : FetchResult),
       usePrebuiltData e = false → strTruthy cfg.gitUrl = true →
       cfg.autoUpdateInterval.gtZero = false →
       (downloadAndExtractTarballRuntime cfg.gitUrl cfg.gitRef e.dl).1 = err →
       err ≠ .ok → err ≠ .invalidUrl →
       (runServer cfg e).2 = .exited ∧ Action.gitClone ∉ (runServer cfg e).1) ∧
    (∀ (gitUrl gitRef : Option String) (dl : String → DLOutcome)
       (clone : Except Unit Unit),
       githubMatch gitUrl = none ∨ ¬ archiveSucceeds gitRef dl →
       Action.gitClone ∈ (downloadAndExtractTarball gitUrl gitRef dl clone).2) := by
  constructor
  · intro cfg e err hpre hg hz hres hne _
    have hrun : runServer cfg e =
        ((downloadAndExtractTarballRuntime cfg.gitUrl cfg.gitRef e.dl).2, .exited) := by
      unfold runServer
      rw [if_neg (by simp [hpre]), if_pos hg, if_neg (by simp [hz])]
      rcases hfull : downloadAndExtractTarballRuntime cfg.gitUrl cfg.gitRef e.dl with ⟨r, t⟩
      rw [hfull] at hres
      cases r with
      | ok => exact absurd hres.symm hne
      | invalidUrl => rfl
      | attemptFailed o => rfl
      | bothRefsFailed => rfl
    rw [hrun]
    exact ⟨rfl, runtime_no_clone cfg.gitUrl cfg.gitRef e.dl⟩
  · intro gitUrl gitRef dl clone hfail
    unfold downloadAndExtractTarball
    cases hg : githubMatch gitUrl with
    | none => simp
    | some p =>
        dsimp only
        have hns : ¬ archiveSucceeds gitRef dl := by
          rcases hfail with h | h
          · rw [hg] at h; cases h
          · exact h
        cases hdl : dl (jsOr gitRef "main") with
        | ok => exact absurd (Or.inl hdl) hns
        | http s =>
            dsimp only
            split
            · next hc =>
                cases hm : dl "master" with
                | ok =>
                    have h404 : dl (jsOr gitRef "main") = DLOutcome.http 404 := by
                      rw [hc.2] at hdl
                      exact hdl
                    exact absurd (Or.inr ⟨hc.1, h404, hm⟩) hns
                | http s2 => simp
                | err => simp
            · simp
        | err => simp

/-- The configuration of the C4/C5 witnesses: a Git URL with
auto-update disabled. -/
def gitCfg0 : Config :=
  { defaultConfig "/pkg/data" with gitUrl := some "https://github.com/acme/docs" }

/-- A server-start environment whose every download fails without a
response. -/
def failRunEnv : RunEnv :=
  { idleRunEnv with
      envVars := { noEnv with GIT_URL := some "https://github.com/acme/docs" }
      dl := fun _ => .err }

/-- C4 witness: a runtime fetch whose only failure is a non-404 on the
configured ref exits fatally with no clone, and the build fetcher with
the same failure attempts a clone. -/
theorem fallbackPolicies_witness :
    (runServer gitCfg0 failRunEnv).2 = .exited ∧
    Action.gitClone ∉ (runServer gitCfg0 failRunEnv).1 ∧
    Action.gitClone ∈ (downloadAndExtractTarball (some "https://github.com/acme/docs")
      (some "main") (fun _ => DLOutcome.err) (.ok ())).2 :=
  ⟨((fallbackPolicies.1 gitCfg0 failRunEnv (.attemptFailed .err)
      (by decide) (by decide) (by decide) rfl (by decide) (by decide))).1,
   ((fallbackPolicies.1 gitCfg0 failRunEnv (.attemptFailed .err)
      (by decide) (by decide) (by decide) rfl (by decide) (by decide))).2,
   fallbackPolicies.2 (some "https://github.com/acme/docs") (some "main")
      (fun _ => DLOutcome.err) (.ok ())
      (Or.inr (by intro h; rcases h with h | ⟨_, h, _⟩ <;> exact absurd h (by decide)))⟩

/-- C5 counterexample: in the build-time archive fetcher, after a 404
on 'main' the 'master' retry extraction is attempted with no directory
clear before it — indeed the build fetcher performs no clear at all,
so the working directory is not cleared immediately before each
extraction attempt. -/
theorem buildFetch_noClear :
    attemptsOf (downloadAndExtractTarball (some "https://github.com/acme/docs")
      (some "main") dlMain404 (.ok ())).2 = ["main", "master"] ∧
    Action.clearDir ∉ (downloadAndExtractTarball (some "https://github.com/acme/docs")
      (some "main") dlMain404 (.ok ())).2 ∧
    clearedBeforeEach (downloadAndExtractTarball (some "https://github.com/acme/docs")
      (some "main") dlMain404 (.ok ())).2 = false := by
  decide

/-- C5 (amended): the runtime archive fetcher clears the working
directory immediately before each extraction attempt, including before
the 'master' fallback retry; the build-time archive fetcher performs
no clear itself — at build time the directory is cleared exactly once,
by `prepareDataDir`, before the fetcher is invoked. -/
theorem clearBeforeExtract :
    (∀ (gitUrl gitRef : Option String) (dl : String → DLOutcome),
       clearedBeforeEach (downloadAndExtractTarballRuntime gitUrl gitRef dl).2 = true) ∧
    (∀ (gitUrl gitRef : Option String) (dl : String → DLOutcome)
       (clone : Except Unit Unit),
       Action.clearDir ∉ (downloadAndExtractTarball gitUrl gitRef dl clone).2) ∧
    (∀ (cfg : Config) (dl : String → DLOutcome) (clone : Except Unit Unit)
       (cp : CopyResult),
       strTruthy cfg.gitUrl = true → cfg.autoUpdateInterval.gtZero = false →
       (prepareDataDir cfg dl clone cp).2 =
         Action.clearDir :: (downloadAndExtractTarball cfg.gitUrl cfg.gitRef dl clone).2) := by
  refine ⟨?_, ?_, ?_⟩
  · intro gitUrl gitRef dl
    unfold downloadAndExtractTarballRuntime
    cases githubMatch gitUrl with
    | none => rfl
    | some p =>
        dsimp only
        cases dl (jsOr gitRef "main") with
        | ok => rfl
        | http s =>
            dsimp only
            split
            · cases dl "master" <;> rfl
            · rfl
        | err => rfl
  · intro gitUrl gitRef dl clone
    unfold downloadAndExtractTarball
    cases githubMatch gitUrl with
    | none => simp
    | some p =>
        dsimp only
        cases dl (jsOr gitRef "main") with
        | ok => simp
        | http s =>
            dsimp only
            split
            · cases dl "master" <;> simp
            · simp
        | err => simp
  · intro cfg dl clone cp hg hz
    unfold prepareDataDir
    rw [if_pos hg, if_neg (by simp [hz])]

/-- C5 witness: a concrete runtime fetch with a 404-then-retry clears
before both attempts, and the concrete build dispatch with the same
configuration clears exactly once, before its fetcher runs. -/
theorem clearBeforeExtract_witness :
    clearedBeforeEach (downloadAndExtractTarballRuntime
      (some "https://github.com/acme/docs") (some "main") dlMain404).2 = true ∧
    (prepareDataDir gitCfg0 dlMain404 (.ok ()) ⟨[], .ok (), true⟩).2 =
      Action.clearDir :: (downloadAndExtractTarball gitCfg0.gitUrl gitCfg0.gitRef
        dlMain404 (.ok ())).2 :=
  ⟨clearBeforeExtract.1 (some "https://github.com/acme/docs") (some "main") dlMain404,
   clearBeforeExtract.2.2 gitCfg0 dlMain404 (.ok ()) ⟨[], .ok (), true⟩
     (by decide) (by decide)⟩

theorem copyFiles_error (copy : String → Except Unit Unit) (files : List String)
    (f : String) (hf : f ∈ files) (hc : copy f = .error ()) :
    (copyFiles copy files).2 = .error () := by
  induction files with
  | nil => cases hf
  | cons a rest ih =>
      unfold copyFiles
      cases ha : copy a with
      | error e => cases e; rfl
      | ok u =>
          dsimp only
          rcases List.mem_cons.mp hf with rfl | hmem
          · rw [ha] at hc
            exact Except.noConfusion hc
          · have hrest := ih hmem
            rcases hcf : copyFiles copy rest with ⟨c, r⟩
            rw [hcf] at hrest
            exact hrest

/-- C8: whenever any single file in a local-directory copy pass fails
to copy, the whole pass ends with the error propagated to the caller
and no success signal is emitted for the partially-populated working
directory. -/
theorem copyIncludedDir_failFast (files : List String)
    (copy : String → Except Unit Unit) (f : String)
    (hf : f ∈ files) (hc : copy f = .error ()) :
    (copyIncludedDir (.ok files) copy).outcome = .error () ∧
    (copyIncludedDir (.ok files) copy).successLogged = false := by
  have hloop := copyFiles_error copy files f hf hc
  rcases hcf : copyFiles copy files with ⟨c, r⟩
  rw [hcf] at hloop
  dsimp only at hloop
  subst hloop
  unfold copyIncludedDir
  dsimp only
  rw [hcf]
  exact ⟨rfl, rfl⟩

/-- A copy environment in which the log file fails to copy. -/
def copyFailLog : String → Except Unit Unit :=
  fun f => if f = "b.log" then .error () else .ok ()

/-- C8 witness: a two-file pass whose second copy fails propagates the
error and logs no success. -/
theorem copyIncludedDir_failFast_witness :
    (copyIncludedDir (.ok ["a.md", "b.log"]) copyFailLog).outcome = .error () ∧
    (copyIncludedDir (.ok ["a.md", "b.log"]) copyFailLog).successLogged = false :=
  copyIncludedDir_failFast ["a.md", "b.log"] copyFailLog "b.log" (by decide) rfl

/-- C9: a tool call addressed to the configured tool whose arguments
are missing, not an object, or lack a `query` field is answered with a
tool-level error payload (`isError` set) rather than a thrown
protocol error, and the server goes on to handle every further
request. -/
theorem missingQuery_toolError (toolName : String) (sr : Except String String)
    (req : ToolRequest) (hname : req.name = toolName)
    (hq : req.arguments = none ∨ req.arguments = some .nonObject ∨
          req.arguments = some (.obj none)) :
    (∃ t, handleCallTool toolName sr req = .reply true t) ∧
    (∀ pre post : List (ToolRequest × Except String String),
       (serveAll toolName (pre ++ (req, sr) :: post)).length =
         pre.length + 1 + post.length) := by
  constructor
  · unfold handleCallTool
    rw [if_neg (by simp [hname])]
    rcases hq with h | h | h <;> rw [h] <;> exact ⟨_, rfl⟩
  · intro pre post
    unfold serveAll
    rw [List.length_map, List.length_append, List.length_cons]
    omega

/-- A tool call with an empty arguments object. -/
def reqNoQuery : ToolRequest := ⟨"search_docs", some (.obj none)⟩

/-- C9 witness: the empty-arguments call gets an error reply and the
following request is still served. -/
theorem missingQuery_toolError_witness :
    (∃ t, handleCallTool "search_docs" (.ok "results") reqNoQuery = .reply true t) ∧
    (serveAll "search_docs"
      [(reqNoQuery, .ok "results"),
       (⟨"search_docs", some (.obj (some (.vStr "install")))⟩, .ok "hit")]).length = 2 :=
  ⟨(missingQuery_toolError "search_docs" (.ok "results") reqNoQuery rfl
      (Or.inr (Or.inr rfl))).1,
   by
     have h := (missingQuery_toolError "search_docs" (.ok "results") reqNoQuery rfl
        (Or.inr (Or.inr rfl))).2 []
        [(⟨"search_docs", some (.obj (some (.vStr "install")))⟩, .ok "hit")]
     simpa using h⟩

theorem absDataDir_autoUpdateInterval (cwd : String) (c : Config) :
    (absDataDir cwd c).autoUpdateInterval = c.autoUpdateInterval := by
  unfold absDataDir; split <;> rfl

theorem absIncludeDir_autoUpdateInterval (cwd : String) (c : Config) :
    (absIncludeDir cwd c).autoUpdateInterval = c.autoUpdateInterval := by
  unfold absIncludeDir
  cases h : c.includeDir with
  | none => simp [h]
  | some s =>
      simp only [h]
      split <;> rfl

theorem validateSources_autoUpdateInterval (c : Config) :
    (validateSources c).1.autoUpdateInterval = c.autoUpdateInterval := by
  unfold validateSources
  split
  · rfl
  · split <;> rfl

theorem loadConfig_autoUpdateInterval (dd cwd : String) (file : Option FileConfig)
    (env : EnvVars) (args : Args) :
    (loadConfig dd cwd file env args).1.autoUpdateInterval =
      (mergeLayers dd file env args).autoUpdateInterval := by
  unfold loadConfig normalizeConfig
  rw [validateSources_autoUpdateInterval, absIncludeDir_autoUpdateInterval,
    absDataDir_autoUpdateInterval]

/-- C10: an auto-update interval supplied as a non-numeric string via
environment variable or command line resolves to NaN; since every
dispatch and rescheduling decision tests `autoUpdateInterval > 0`,
which is false for NaN, the server then treats a Git-backed source
exactly as interval 0: start goes through the archive-download path
(a download is attempted) and no update timer is ever armed — neither
by start-up nor by any update cycle. -/
theorem nanIntervalBehavesAsZero :
    (∀ (dd cwd : String) (file : Option FileConfig) (env : EnvVars) (args : Args)
       (s : String), parseIntJS s = .nan →
       ((env.AUTO_UPDATE_INTERVAL = some s ∧ s ≠ "" ∧ args.autoUpdateInterval = none) ∨
         args.autoUpdateInterval = some s) →
       (loadConfig dd cwd file env args).1.autoUpdateInterval = .nan) ∧
    (∀ (cfg : Config) (e : RunEnv),
       cfg.autoUpdateInterval = .nan → strTruthy cfg.gitUrl = true →
       usePrebuiltData e = false → (githubMatch cfg.gitUrl).isSome = true →
       armedDelays (runServer cfg e).1 = [] ∧
       attemptsOf (runServer cfg e).1 ≠ []) ∧
    (∀ (cfg : Config) (g : Bool) (env : CheckEnv),
       cfg.autoUpdateInterval = .nan →
       armedDelays (checkForUpdates cfg g env).1 = []) := by
  refine ⟨?_, ?_, ?_⟩
  · intro dd cwd file env args s hs hsup
    rw [loadConfig_autoUpdateInterval]
    unfold mergeLayers applyArgs
    dsimp only
    rcases hsup with ⟨he, hse, ha⟩ | ha
    · rw [ha]
      unfold applyEnv
      dsimp only
      rw [he]
      dsimp only
      rw [if_neg hse]
      exact hs
    · rw [ha]
      exact hs
  · intro cfg e hnan hg hpre hmat
    have hz : cfg.autoUpdateInterval.gtZero = false := by rw [hnan]; rfl
    have hrun : (runServer cfg e).1 =
        (downloadAndExtractTarballRuntime cfg.gitUrl cfg.gitRef e.dl).2 := by
      unfold runServer
      rw [if_neg (by simp [hpre]), if_pos hg, if_neg (by simp [hz])]
      rcases hfull : downloadAndExtractTarballRuntime cfg.gitUrl cfg.gitRef e.dl with ⟨r, t⟩
      cases r <;> rfl
    rw [hrun]
    refine ⟨runtime_no_timer _ _ _, ?_⟩
    obtain ⟨p, hp⟩ := Option.isSome_iff_exists.mp hmat
    rw [runtimeAttempts cfg.gitUrl cfg.gitRef e.dl p hp]
    split <;> simp
  · intro cfg g env hnan
    unfold checkForUpdates
    split
    · rfl
    · dsimp only
      rw [armedDelays_append, armedDelays_checkBodyTrace, List.nil_append, hnan]
      rfl

/-- The C10 witness configuration: Git-backed with a NaN interval. -/
def nanCfg : Config :=
  { defaultConfig "/pkg/data" with
      gitUrl := some "https://github.com/acme/docs"
      autoUpdateInterval := JNum.nan }

/-- The C10 witness environment: GIT_URL and a non-numeric interval in
the environment. -/
def nanRunEnv : RunEnv :=
  { idleRunEnv with
      envVars := { noEnv with
                     GIT_URL := some "https://github.com/acme/docs"
                     AUTO_UPDATE_INTERVAL := some "hourly" } }

/-- C10 witness: the non-numeric interval string "hourly" resolves to
NaN and the concrete Git-backed start downloads an archive and arms no
timer. -/
theorem nanIntervalBehavesAsZero_witness :
    (loadConfig "/pkg/data" "/cwd" none
      { noEnv with
          GIT_URL := some "https://github.com/acme/docs"
          AUTO_UPDATE_INTERVAL := some "hourly" }
      noArgs).1.autoUpdateInterval = .nan ∧
    armedDelays (runServer nanCfg nanRunEnv).1 = [] ∧
    attemptsOf (runServer nanCfg nanRunEnv).1 ≠ [] :=
  ⟨nanIntervalBehavesAsZero.1 "/pkg/data" "/cwd" none
      { noEnv with
          GIT_URL := some "https://github.com/acme/docs"
          AUTO_UPDATE_INTERVAL := some "hourly" }
      noArgs "hourly" (by decide) (Or.inl ⟨rfl, by decide, rfl⟩),
   (nanIntervalBehavesAsZero.2.1 nanCfg nanRunEnv rfl (by decide)
      (by decide) (by decide)).1,
   (nanIntervalBehavesAsZero.2.1 nanCfg nanRunEnv rfl (by decide)
      (by decide) (by decide)).2⟩

/-- C6 (amended): for every combination of the four configuration
layers, each field of the four-layer merge — before the post-merge
normalisation (path absolutisation and the gitUrl-beats-includeDir
rule) — equals the value set at the highest-precedence layer that sets
it, with CLI > env > file > default and unset fields falling through;
a field is "set" by the file layer when its key is present, and by the
env/CLI layers when the variable is given and truthy (except
`autoUpdateInterval` and `enableBuildCleanup` on the CLI, which count
as set whenever defined), the interval layers setting the `parseInt`
of their raw value. -/
theorem mergeLayers_precedence (dd : String) (file : Option FileConfig)
    (env : EnvVars) (args : Args) :
    (mergeLayers dd file env args).includeDir =
      layered none (fileSets file FileConfig.includeDir)
        ((truthySet env.INCLUDE_DIR).map some) ((truthySet args.includeDir).map some)
  ∧ (mergeLayers dd file env args).gitUrl =
      layered none (fileSets file FileConfig.gitUrl)
        ((truthySet env.GIT_URL).map some) ((truthySet args.gitUrl).map some)
  ∧ (mergeLayers dd file env args).gitRef =
      layered (some "main") (fileSets file FileConfig.gitRef)
        ((truthySet env.GIT_REF).map some) ((truthySet args.gitRef).map some)
  ∧ (mergeLayers dd file env args).autoUpdateInterval =
      layered (JNum.num 0) ((fileSets file FileConfig.autoUpdateInterval).map JNum.num)
        ((truthySet env.AUTO_UPDATE_INTERVAL).map parseIntJS)
        (args.autoUpdateInterval.map parseIntJS)
  ∧ (mergeLayers dd file env args).dataDir =
      layered dd (fileSets file FileConfig.dataDir)
        (truthySet env.DATA_DIR) (truthySet args.dataDir)
  ∧ (mergeLayers dd file env args).toolName =
      layered "search_docs" (fileSets file FileConfig.toolName)
        (truthySet env.TOOL_NAME) (truthySet args.toolName)
  ∧ (mergeLayers dd file env args).toolDescription =
      layered "Search documentation using the probe search engine."
        (fileSets file FileConfig.toolDescription)
        (truthySet env.TOOL_DESCRIPTION) (truthySet args.toolDescription)
  ∧ (mergeLayers dd file env args).ignorePatterns =
      layered defaultIgnorePatterns (fileSets file FileConfig.ignorePatterns) none none
  ∧ (mergeLayers dd file env args).enableBuildCleanup =
      layered true (fileSets file FileConfig.enableBuildCleanup) none
        (args.enableBuildCleanup.map argValIsTrue) := by
  refine ⟨?_, ?_, ?_, ?_, ?_, ?_, ?_, ?_, ?_⟩
  · simp only [mergeLayers, applyArgs, applyEnv]
    rw [ifTruthy_eq, ifTruthy_eq, applyFile_includeDir]; rfl
  · simp only [mergeLayers, applyArgs, applyEnv]
    rw [ifTruthy_eq, ifTruthy_eq, applyFile_gitUrl]; rfl
  · simp only [mergeLayers, applyArgs, applyEnv]
    rw [ifTruthy_eq, ifTruthy_eq, applyFile_gitRef]; rfl
  · simp only [mergeLayers, applyArgs, applyEnv]
    rw [matchParse_eq, matchTruthyParse_eq, applyFile_autoUpdateInterval]; rfl
  · simp only [mergeLayers, applyArgs, applyEnv]
    rw [matchTruthyStr_eq, matchTruthyStr_eq, applyFile_dataDir]; rfl
  · simp only [mergeLayers, applyArgs, applyEnv]
    rw [matchTruthyStr_eq, matchTruthyStr_eq, applyFile_toolName]; rfl
  · simp only [mergeLayers, applyArgs, applyEnv]
    rw [matchTruthyStr_eq, matchTruthyStr_eq, applyFile_toolDescription]; rfl
  · simp only [mergeLayers, applyArgs, applyEnv]
    rw [applyFile_ignorePatterns]; rfl
  · simp only [mergeLayers, applyArgs, applyEnv]
    rw [matchArgVal_eq, applyFile_enableBuildCleanup]; rfl

/-- C6 counterexample: with the config file setting `gitUrl` and the
command line (the highest-precedence layer) setting `includeDir`, the
resolved settings end with `includeDir = null` rather than the CLI
value — the post-merge exclusivity rule overrides the
highest-precedence layer, so the claim is false of the final resolved
settings. -/
theorem resolvedIncludeDir_not_cli :
    ((loadConfig "/pkg/data" "/cwd"
        (some { noFileKeys with gitUrl := some (some "https://github.com/a/b") })
        noEnv { noArgs with includeDir := some "/docs" }).1.includeDir = none) ∧
    ({ noArgs with includeDir := some "/docs" } : Args).includeDir = some "/docs" := by
  decide

/-- C7: whenever the fully merged configuration has both a truthy
`includeDir` and a truthy `gitUrl`, the resolved settings keep the
repository source, clear `includeDir` to null, and log the conflict
warning exactly once; and for every input whatsoever, the resolved
settings never have both sources truthy. -/
theorem loadConfig_sourceExclusive (dd cwd : String) (file : Option FileConfig)
    (env : EnvVars) (args : Args) :
    (strTruthy (mergeLayers dd file env args).includeDir = true →
     strTruthy (mergeLayers dd file env args).gitUrl = true →
       (loadConfig dd cwd file env args).1.includeDir = none ∧
       (loadConfig dd cwd file env args).1.gitUrl = (mergeLayers dd file env args).gitUrl ∧
       List.count Warning.conflictBothSources (loadConfig dd cwd file env args).2 = 1) ∧
    (strTruthy (loadConfig dd cwd file env args).1.includeDir = false ∨
     strTruthy (loadConfig dd cwd file env args).1.gitUrl = false) := by
  have h1 : loadConfig dd cwd file env args =
      validateSources (absIncludeDir cwd (absDataDir cwd (mergeLayers dd file env args))) := rfl
  set m := mergeLayers dd file env args with hm
  set c2 := absIncludeDir cwd (absDataDir cwd m) with hc2
  have hti : strTruthy c2.includeDir = strTruthy m.includeDir := by
    rw [hc2, absIncludeDir_truthy, absDataDir_includeDir]
  have htg : c2.gitUrl = m.gitUrl := by
    rw [hc2, absIncludeDir_gitUrl, absDataDir_gitUrl]
  constructor
  · intro hI hG
    have hcond : strTruthy c2.includeDir ∧ strTruthy c2.gitUrl := by
      rw [hti, htg]; exact ⟨hI, hG⟩
    rw [h1]
    unfold validateSources
    rw [if_pos hcond]
    exact ⟨rfl, htg, rfl⟩
  · rw [h1]
    simp only [validateSources]
    by_cases hcond : strTruthy c2.includeDir ∧ strTruthy c2.gitUrl
    · rw [if_pos hcond]
      left; rfl
    · rw [if_neg hcond]
      rcases not_and_or.mp hcond with h | h
      · split <;> exact Or.inl (by simpa using h)
      · split <;> exact Or.inr (by simpa [htg] using h)

/-- C7 witness: a configuration file naming both sources is resolved
to the repository source with includeDir cleared and exactly one
conflict warning. -/
theorem loadConfig_sourceExclusive_witness :
    (loadConfig "/pkg/data" "/cwd"
        (some { noFileKeys with
                  includeDir := some (some "/docs"),
                  gitUrl := some (some "https://github.com/a/b") })
        noEnv noArgs).1.includeDir = none ∧
    (loadConfig "/pkg/data" "/cwd"
        (some { noFileKeys with
                  includeDir := some (some "/docs"),
                  gitUrl := some (some "https://github.com/a/b") })
        noEnv noArgs).1.gitUrl =
      (mergeLayers "/pkg/data"
        (some { noFileKeys with
                  includeDir := some (some "/docs"),
                  gitUrl := some (some "https://github.com/a/b") })
        noEnv noArgs).gitUrl ∧
    List.count Warning.conflictBothSources
      (loadConfig "/pkg/data" "/cwd"
        (some { noFileKeys with
                  includeDir := some (some "/docs"),
                  gitUrl := some (some "https://github.com/a/b") })
        noEnv noArgs).2 = 1 :=
  (loadConfig_sourceExclusive "/pkg/data" "/cwd"
      (some { noFileKeys with
                includeDir := some (some "/docs"),
                gitUrl := some (some "https://github.com/a/b") })
      noEnv noArgs).1 (by decide) (by decide)

end DocsMcp
